import Mathlib

/-!
Verification of the approval/dispatch core of `agent-tether`.

The Python source is shallowly embedded: wall-clock times become `Nat`
(seconds) passed explicitly where the source calls `time.time()`,
Python dicts become insertion-ordered association lists, async side
effects (platform sends, supervisor callbacks) become an emitted list
of `Event`s, and fallible handlers return `Except`.
-/

set_option maxRecDepth 10000

namespace AgentTether

/-! ### Python `str` primitives

Character-list implementations of the `str` methods the source uses
(`strip`, `lower`, `startswith`, slicing, `split`), chosen so that the
kernel can evaluate them on concrete strings.  The source's inputs are
ASCII, where these agree with Python. -/

/-- Python `s.strip()`. -/
def trimStr (s : String) : String :=
  String.mk
    (((s.data.dropWhile Char.isWhitespace).reverse.dropWhile
      Char.isWhitespace).reverse)

/-- Python `s.lower()`. -/
def lowerStr (s : String) : String := String.mk (s.data.map Char.toLower)

/-- Python `s.startswith(p)`. -/
def startsWithStr (s p : String) : Bool := p.data.isPrefixOf s.data

/-- Python `s[:n]`. -/
def takeStr (s : String) (n : Nat) : String := String.mk (s.data.take n)

/-- Python `s[n:]`. -/
def dropStr (s : String) (n : Nat) : String := String.mk (s.data.drop n)

/-- Helper for `splitChar`: split a character list at every `c`. -/
def splitCharList (c : Char) : List Char → List (List Char)
  | [] => [[]]
  | x :: xs =>
    let r := splitCharList c xs
    if x = c then [] :: r
    else
      match r with
      | h :: t => (x :: h) :: t
      | [] => [[x]]

/-- Python `s.split(c)` for a single-character separator. -/
def splitChar (c : Char) (s : String) : List String :=
  (splitCharList c s.data).map String.mk

/-! ### Association lists (Python `dict` with insertion order) -/

namespace AList

/-- `d.get(k)` on a Python dict. -/
def get {α : Type} (l : List (String × α)) (k : String) : Option α :=
  match l with
  | [] => none
  | (k', v) :: t => if k' = k then some v else get t k

/-- `d[k] = v` on a Python dict: replace in place, else append at the
end (insertion order preserved, as Python dicts do). -/
def set {α : Type} (l : List (String × α)) (k : String) (v : α) :
    List (String × α) :=
  match l with
  | [] => [(k, v)]
  | (k', v') :: t => if k' = k then (k, v) :: t else (k', v') :: set t k v

/-- `d.pop(k, None)`'s effect on the dict: remove every binding of `k`. -/
def erase {α : Type} (l : List (String × α)) (k : String) :
    List (String × α) :=
  match l with
  | [] => []
  | (k', v') :: t => if k' = k then erase t k else (k', v') :: erase t k

theorem get_set_self {α : Type} (l : List (String × α)) (k : String) (v : α) :
    get (set l k v) k = some v := by
  induction l with
  | nil => simp [get, set]
  | cons h t ih =>
    obtain ⟨k', v'⟩ := h
    by_cases hk : k' = k <;> simp [get, set, hk, ih]

theorem get_set_ne {α : Type} (l : List (String × α)) (k k' : String) (v : α)
    (h : k' ≠ k) : get (set l k v) k' = get l k' := by
  have h' : ¬ k = k' := fun hh => h hh.symm
  induction l with
  | nil => simp [get, set, h']
  | cons hd t ih =>
    obtain ⟨k'', v''⟩ := hd
    by_cases hk : k'' = k
    · subst hk
      simp [get, set, h']
    · by_cases hk' : k'' = k' <;> simp [get, set, hk, hk', h, ih]

theorem get_erase_self {α : Type} (l : List (String × α)) (k : String) :
    get (erase l k) k = none := by
  induction l with
  | nil => simp [get, erase]
  | cons hd t ih =>
    obtain ⟨k', v'⟩ := hd
    by_cases hk : k' = k <;> simp [get, erase, hk, ih]

theorem get_erase_ne {α : Type} (l : List (String × α)) (k k' : String)
    (h : k' ≠ k) : get (erase l k) k' = get l k' := by
  have h' : ¬ k = k' := fun hh => h hh.symm
  induction l with
  | nil => simp [get, erase]
  | cons hd t ih =>
    obtain ⟨k'', v''⟩ := hd
    by_cases hk : k'' = k
    · subst hk
      simp [get, erase, h', ih]
    · by_cases hk' : k'' = k' <;> simp [get, erase, hk, hk', h, ih]

end AList

/-! ### `os.path` helpers (POSIX semantics, as the source runs them) -/

/-- Python's `path or dot` fallback at the end of `normpath`. -/
def orDot (s : String) : String := if s = "" then "." else s

theorem orDot_ne_empty (s : String) : orDot s ≠ "" := by
  unfold orDot
  split <;> simp_all

/-- `posixpath.normpath`: collapse `//` and `.` components and resolve
`..` lexically, preserving one or exactly-two leading slashes. -/
def normpath (path : String) : String :=
  if path = "" then "." else
  let initialSlashes : Nat :=
    if startsWithStr path "/" then
      if startsWithStr path "//" ∧ ¬ startsWithStr path "///" then 2 else 1
    else 0
  let comps := splitChar '/' path
  let newComps := comps.foldl
    (fun acc comp =>
      if comp = "" ∨ comp = "." then acc
      else if comp ≠ ".." ∨ (initialSlashes = 0 ∧ acc = [])
          ∨ (acc ≠ [] ∧ acc.getLast? = some "..") then acc ++ [comp]
      else if acc ≠ [] then acc.dropLast
      else acc)
    []
  let joined := String.intercalate "/" newComps
  orDot (String.join (List.replicate initialSlashes "/") ++ joined)

/-- `posixpath.basename`: everything after the last `/`. -/
def basename (p : String) : String :=
  (splitChar '/' p).getLastD ""

theorem normpath_ne_empty (p : String) : normpath p ≠ "" := by
  unfold normpath
  split
  · simp
  · exact orDot_ne_empty _

/-! ### `AutoApproveEngine` (`agent_tether/approval.py`) -/

/-- Default never-auto-approve prefixes (`_DEFAULT_NEVER_AUTO_APPROVE`). -/
def defaultNever : List String := ["task", "enterplanmode", "exitplanmode"]

/-- The timed auto-approve engine's state.  `time.time()` values are
`Nat` seconds supplied explicitly by callers. -/
structure AutoApproveEngine where
  duration_s : Nat
  /-- `self._never`: tool-name prefixes never auto-approved. -/
  never : List String
  /-- `self._allow_all_until`: thread_id → expiry. -/
  allow_all_until : List (String × Nat)
  /-- `self._allow_tool_until`: thread_id → (tool_name → expiry). -/
  allow_tool_until : List (String × List (String × Nat))
  /-- `self._allow_dir_until`: normalised dir → expiry. -/
  allow_dir_until : List (String × Nat)
  /-- `self._thread_directory`: thread → directory association. -/
  thread_directory : List (String × String)
  deriving DecidableEq

namespace AutoApproveEngine

/-- `AutoApproveEngine(duration_s=…, never_auto_approve=…)`. -/
def init (duration_s : Nat) (never : List String) : AutoApproveEngine :=
  { duration_s := duration_s, never := never, allow_all_until := [],
    allow_tool_until := [], allow_dir_until := [], thread_directory := [] }

/-- `associate_directory(thread_id, directory)`. -/
def associate_directory (e : AutoApproveEngine) (thread_id directory : String) :
    AutoApproveEngine :=
  { e with thread_directory :=
      AList.set e.thread_directory thread_id (normpath directory) }

/-- `is_never_approved(tool_name)`: case-insensitive prefix match of the
stripped tool name against the never set. -/
def is_never_approved (e : AutoApproveEngine) (tool_name : String) : Bool :=
  e.never.any (fun p => startsWithStr (lowerStr (trimStr tool_name)) p)

/-- `_check_directory(thread_id, now)`. -/
def check_directory (e : AutoApproveEngine) (thread_id : String) (now : Nat) :
    Option String :=
  if e.allow_dir_until = [] then none
  else
    match AList.get e.thread_directory thread_id with
    | none => none
    | some thread_dir =>
      if thread_dir = "" then none
      else
        e.allow_dir_until.findSome? (fun ad =>
          if now ≥ ad.2 then none
          else if thread_dir = ad.1 ∨ startsWithStr thread_dir (ad.1 ++ "/") then
            some ("Allow dir " ++
              (if basename ad.1 = "" then ad.1 else basename ad.1))
          else none)

/-- `check(thread_id, tool_name)`: never-approve prefixes first, then
allow-all, then per-tool, then directory grants. -/
def check (e : AutoApproveEngine) (thread_id tool_name : String) (now : Nat) :
    Option String :=
  if e.is_never_approved tool_name then none
  else if now < (AList.get e.allow_all_until thread_id).getD 0 then
    some "Allow All"
  else if now <
      (AList.get ((AList.get e.allow_tool_until thread_id).getD []) tool_name).getD 0 then
    some ("Allow " ++ tool_name)
  else e.check_directory thread_id now

/-- `set_allow_all(thread_id)` at time `now`. -/
def set_allow_all (e : AutoApproveEngine) (thread_id : String) (now : Nat) :
    AutoApproveEngine :=
  { e with allow_all_until :=
      AList.set e.allow_all_until thread_id (now + e.duration_s) }

/-- `set_allow_tool(thread_id, tool_name)` at time `now`. -/
def set_allow_tool (e : AutoApproveEngine) (thread_id tool_name : String)
    (now : Nat) : AutoApproveEngine :=
  let tools := (AList.get e.allow_tool_until thread_id).getD []
  let tools' := AList.set tools tool_name (now + e.duration_s)
  { e with allow_tool_until := AList.set e.allow_tool_until thread_id tools' }

/-- `set_allow_directory(directory)` at time `now`. -/
def set_allow_directory (e : AutoApproveEngine) (directory : String)
    (now : Nat) : AutoApproveEngine :=
  { e with allow_dir_until :=
      AList.set e.allow_dir_until (normpath directory) (now + e.duration_s) }

/-- `get_directory(thread_id)`. -/
def get_directory (e : AutoApproveEngine) (thread_id : String) :
    Option String :=
  AList.get e.thread_directory thread_id

/-- `remove_thread(thread_id)`: drop the per-thread grants and the
directory association; directory grants are keyed by path and stay. -/
def remove_thread (e : AutoApproveEngine) (thread_id : String) :
    AutoApproveEngine :=
  { e with
    allow_all_until := AList.erase e.allow_all_until thread_id,
    allow_tool_until := AList.erase e.allow_tool_until thread_id,
    thread_directory := AList.erase e.thread_directory thread_id }

end AutoApproveEngine

/-! ### `_parse_approval_text` (`platforms/base.py`) -/

/-- The dict returned by `_parse_approval_text`:
`{"allow": …, "reason": …, "timer": …}`. -/
structure Parsed where
  allow : Bool
  reason : Option String
  timer : Option String
  deriving DecidableEq

/-- The substring after the first occurrence of `c`
(`s[s.index(c) + 1:]`; the source only calls it when `c` occurs). -/
def afterFirst (c : Char) (s : String) : String :=
  match s.toList.dropWhile (fun x => x ≠ c) with
  | [] => ""
  | _ :: rest => String.mk rest

/-- Rules 9–10 of the parser: bare deny synonyms, else not an approval. -/
def parse_approval_deny_tail (lower : String) : Option Parsed :=
  if lower = "deny" ∨ lower = "reject" ∨ lower = "no" then
    some ⟨false, none, none⟩
  else none

/-- Rules 6–10 of the parser, reached when rules 1–5 fell through
(rule 5's empty-rest branch falls through, as the source's sequential
returns do). -/
def parse_approval_tail (stripped lower : String) : Option Parsed :=
  if lower = "allow" ∨ lower = "approve" ∨ lower = "yes" then
    some ⟨true, none, none⟩
  else if startsWithStr lower "deny:" ∨ startsWithStr lower "reject:"
      ∨ startsWithStr lower "no:" then
    let reason := trimStr (afterFirst ':' stripped)
    some ⟨false, if reason = "" then none else some reason, none⟩
  else if startsWithStr lower "deny " ∨ startsWithStr lower "reject " then
    let reason := trimStr (afterFirst ' ' stripped)
    if reason ≠ "" then some ⟨false, some reason, none⟩
    else parse_approval_deny_tail lower
  else parse_approval_deny_tail lower

/-- `BridgeBase._parse_approval_text(text)`: classify a free-text human
reply as an approval response, or `none`. -/
def parse_approval_text (text : String) : Option Parsed :=
  let stripped := trimStr text
  let lower := lowerStr stripped
  if lower = "proceed" ∨ lower = "continue" ∨ lower = "start"
      ∨ lower = "go" ∨ lower = "ok" ∨ lower = "okay" then
    some ⟨true, none, none⟩
  else if lower = "cancel" ∨ lower = "stop" ∨ lower = "abort" then
    some ⟨false, none, none⟩
  else if lower = "allow all" then some ⟨true, none, some "all"⟩
  else if lower = "allow dir" then some ⟨true, none, some "dir"⟩
  else if startsWithStr lower "allow " ∧ lower ≠ "allow all" then
    let rest := trimStr (dropStr stripped 6)
    if rest ≠ "" then some ⟨true, none, some rest⟩
    else parse_approval_tail stripped lower
  else parse_approval_tail stripped lower

/-! ### `ThreadState` (`agent_tether/state.py`)

`save()`/`load()` write and read the JSON snapshot on disk; the disk
round-trip is I/O outside this embedding, so only the in-memory maps
they maintain are modelled. -/

structure ThreadState where
  max_len : Nat
  /-- `self._names`: thread_id → name. -/
  names : List (String × String)
  /-- `self._used_names` (a Python set; modelled as a duplicate-free
  list inserted in first-use order). -/
  used_names : List String
  deriving DecidableEq

namespace ThreadState

/-- The `base` computed at the top of `allocate_name`:
`(base_name or "Thread").strip() or "Thread"`, truncated. -/
def alloc_base (s : ThreadState) (base_name : String) : String :=
  let b := trimStr (if base_name = "" then "Thread" else base_name)
  let b := if b = "" then "Thread" else b
  takeStr b s.max_len

/-- One loop candidate: `(base[:avail] + f" {i}")[:max_len]` with
`avail = max(1, max_len - len(suffix))`. -/
def candidate (s : ThreadState) (base : String) (i : Nat) : String :=
  let sfx := " " ++ toString i
  let avail := max 1 (s.max_len - sfx.length)
  takeStr (takeStr base avail ++ sfx) s.max_len

/-- `allocate_name(base_name)`: the truncated base if unused, else the
first unused candidate for `i ∈ range(2, 100)`, else the base again. -/
def allocate_name (s : ThreadState) (base_name : String) : String :=
  let base := s.alloc_base base_name
  if base ∈ s.used_names then
    match (List.range' 2 98).find?
        (fun i => decide (s.candidate base i ∉ s.used_names)) with
    | some i => s.candidate base i
    | none => base
  else base

/-- `register(thread_id, name)` (without the `save()` disk write). -/
def register (s : ThreadState) (thread_id name : String) : ThreadState :=
  { s with
    names := AList.set s.names thread_id name,
    used_names :=
      if name ∈ s.used_names then s.used_names else s.used_names ++ [name] }

/-- `unregister(thread_id)` (without the `save()` disk write): pop the
mapping; discard the name from the used set only when it is truthy. -/
def unregister (s : ThreadState) (thread_id : String) : ThreadState :=
  let name := AList.get s.names thread_id
  let s' := { s with names := AList.erase s.names thread_id }
  match name with
  | some n => if n ≠ "" then { s' with used_names := s'.used_names.erase n } else s'
  | none => s'

end ThreadState

/-! ### `ErrorDebouncer` (`agent_tether/debounce.py`) -/

structure ErrorDebouncer where
  /-- `self._debounce_s` (a Python int, possibly ≤ 0). -/
  debounce_s : Int
  /-- `self._last_sent`: thread_id → last-sent timestamp. -/
  last_sent : List (String × Int)
  deriving DecidableEq

namespace ErrorDebouncer

/-- `should_send(thread_id)` at time `now`: the returned flag together
with the (possibly updated) debouncer state. -/
def should_send (d : ErrorDebouncer) (thread_id : String) (now : Int) :
    Bool × ErrorDebouncer :=
  if d.debounce_s ≤ 0 then (true, d)
  else
    match AList.get d.last_sent thread_id with
    | some last =>
      if now - last < d.debounce_s then (false, d)
      else (true, { d with last_sent := AList.set d.last_sent thread_id now })
    | none => (true, { d with last_sent := AList.set d.last_sent thread_id now })

/-- `remove_thread(thread_id)`. -/
def remove_thread (d : ErrorDebouncer) (thread_id : String) : ErrorDebouncer :=
  { d with last_sent := AList.erase d.last_sent thread_id }

end ErrorDebouncer

/-! ### `BridgeBase` (`agent_tether/platforms/base.py`)

The async side effects of a bridge method — platform sends and the
supervisor callback — are returned as an ordered list of `Event`s next
to the updated bridge state. -/

/-- `ApprovalRequest` from `models.py` (the fields `BridgeBase` uses). -/
structure ApprovalRequest where
  kind : String
  request_id : String
  title : String
  description : String
  options : List String
  deriving DecidableEq

/-- A command table entry (`CommandDef`); a raising handler is `.error`. -/
structure CommandDef where
  description : String
  handler : String → String → Except String (Option String)

/-- One observable side effect of a bridge method, in program order. -/
inductive Event where
  /-- `handlers.on_approval_response(thread_id, request_id, allowed, a4, a5)`
  with its two trailing positional arguments kept as the source passes
  them (`_handle_approval_parsed` passes `reason, timer`;
  `_auto_approve` passes `None, reason`). -/
  | approvalResponse (thread_id request_id : String) (allowed : Bool)
      (arg4 arg5 : Option String)
  /-- `_platform_typing_stop(thread_id)`. -/
  | typingStop (thread_id : String)
  /-- `_platform_send_approval(thread_id, request, formatted)`. -/
  | sendApproval (thread_id : String) (request : ApprovalRequest)
      (formatted : String)
  /-- `_platform_send(thread_id, text)`. -/
  | sendText (thread_id text : String)
  deriving DecidableEq

/-- The `BridgeBase` state the verified claims touch. -/
structure Bridge where
  approval : AutoApproveEngine
  /-- `self._batcher._buffer`; the batcher's asyncio flush timers are
  real-time concurrency outside this embedding. -/
  batch_buffer : List (String × List (String × String))
  /-- `self._pending`: thread_id → ApprovalRequest. -/
  pending : List (String × ApprovalRequest)
  /-- `self._commands`. -/
  commands : List (String × CommandDef)
  /-- `handlers.on_command`, the catch-all; `none` when unset. -/
  on_command : Option (String → String → String → Except String (Option String))
  /-- Whether `handlers.on_approval_response` is set. -/
  has_cb : Bool
  /-- `self._command_prefix`. -/
  cmd_pref : String
  /-- `format_tool_input` (`formatting.py`): JSON/text pretty-printing
  of tool arguments, an out-of-scope formatting edge per the spec; kept
  abstract. -/
  fmt : String → String

/-- `NotificationBatcher.add(thread_id, tool_name, reason)`'s effect on
the buffer: `self._buffer.setdefault(thread_id, []).append(...)`. -/
def batcherAdd (buf : List (String × List (String × String)))
    (thread_id tool reason : String) : List (String × List (String × String)) :=
  AList.set buf thread_id ((AList.get buf thread_id).getD [] ++ [(tool, reason)])

namespace Bridge

/-- `send_approval_request(thread_id, request_id=…, tool_name=…,
description=…)`: auto-approve on an engine hit, else record the pending
request and render it. -/
def send_approval_request (b : Bridge)
    (thread_id request_id tool_name description : String) (now : Nat) :
    Bridge × List Event :=
  let request : ApprovalRequest :=
    ⟨"permission", request_id, tool_name, description, ["Allow", "Deny"]⟩
  let render :=
    ({ b with pending := AList.set b.pending thread_id request },
     [Event.typingStop thread_id,
      Event.sendApproval thread_id request (b.fmt description)])
  match b.approval.check thread_id tool_name now with
  | some reason =>
    -- `if reason:` — Python truthiness, so an empty string would render
    if reason = "" then render
    else
      -- `_auto_approve`: supervisor callback (when set) + batcher
      ({ b with batch_buffer := batcherAdd b.batch_buffer thread_id request.title reason },
       if b.has_cb then
         [Event.approvalResponse thread_id request.request_id true none (some reason)]
       else [])
  | none => render

/-- The confirmation message `_handle_approval_parsed` sends last. -/
def approval_confirmation (thread_id : String) (parsed : Parsed)
    (username : Option String) : Event :=
  let byUser :=
    match username with
    | some u => if u ≠ "" then " by " ++ u else ""
    | none => ""
  if parsed.allow then
    let msg :=
      match parsed.timer with
      | some t =>
        if t = "all" then "Allow All (30m)"
        else if t = "dir" then "Allow dir (30m)"
        else if t ≠ "" then "Allow " ++ t ++ " (30m)"
        else "Approved"
      | none => "Approved"
    Event.sendText thread_id ("✅ " ++ msg ++ byUser)
  else
    let msg :=
      match parsed.reason with
      | some r => if r ≠ "" then "Denied: " ++ r else "Denied"
      | none => "Denied"
    Event.sendText thread_id ("❌ " ++ msg ++ byUser)

/-- `_handle_approval_parsed(thread_id, request, parsed, username)` at
time `now`: write the grant the timer scope asks for, clear the pending
request, invoke the supervisor callback, send the confirmation. -/
def handle_approval_parsed (b : Bridge) (thread_id : String)
    (request : ApprovalRequest) (parsed : Parsed) (username : Option String)
    (now : Nat) : Bridge × List Event :=
  let approval' :=
    if parsed.allow then
      match parsed.timer with
      | some t =>
        if t = "all" then b.approval.set_allow_all thread_id now
        else if t = "dir" then
          match b.approval.get_directory thread_id with
          | some d =>
            -- `if directory:` — empty string falls back to allow-all
            if d ≠ "" then b.approval.set_allow_directory d now
            else b.approval.set_allow_all thread_id now
          | none => b.approval.set_allow_all thread_id now
        else if t ≠ "" then b.approval.set_allow_tool thread_id t now
        else b.approval
      | none => b.approval
    else b.approval
  let b' := { b with approval := approval',
                     pending := AList.erase b.pending thread_id }
  let cbEvents :=
    if b.has_cb then
      [Event.approvalResponse thread_id request.request_id parsed.allow
        parsed.reason parsed.timer]
    else []
  (b', cbEvents ++ [approval_confirmation thread_id parsed username])

/-- The command-name/args split at the top of `_dispatch_command`:
strip the command prefix, then `split(None, 1)` with the name
case-folded and the args stripped; `none` when nothing remains. -/
def commandParts (pref text : String) : Option (String × String) :=
  let without := trimStr (dropStr text pref.length)
  if without = "" then none
  else
    let cs := without.data
    let tok := String.mk (cs.takeWhile (fun c => ¬ c.isWhitespace))
    let rest := String.mk (cs.dropWhile (fun c => ¬ c.isWhitespace))
    some (lowerStr tok, trimStr rest)

/-- `if reply: await self._platform_send(thread_id, reply)`. -/
def replyEvents (thread_id : String) (reply : Option String) : List Event :=
  match reply with
  | some r => if r ≠ "" then [Event.sendText thread_id r] else []
  | none => []

/-- `_dispatch_command(thread_id, text, username)`: registered command
first (its exception caught and reported as "Command failed: …"), then
the catch-all handler (its exception caught and only logged), else the
unknown-command reply. -/
def dispatch_command (b : Bridge) (thread_id text : String)
    (_username : Option String) : Bridge × List Event :=
  match commandParts b.cmd_pref text with
  | none => (b, [])
  | some (cmd_name, args) =>
    match AList.get b.commands cmd_name with
    | some cmd =>
      match cmd.handler thread_id args with
      | .ok reply => (b, replyEvents thread_id reply)
      | .error _ => (b, [Event.sendText thread_id ("Command failed: " ++ cmd_name)])
    | none =>
      match b.on_command with
      | some h =>
        match h thread_id cmd_name args with
        | .ok reply => (b, replyEvents thread_id reply)
        | .error _ => (b, [])
      | none =>
        (b, [Event.sendText thread_id
          ("Unknown command: " ++ b.cmd_pref ++ cmd_name ++ "\nUse "
            ++ b.cmd_pref ++ "help for available commands.")])

end Bridge

/-! ### Generic helper lemmas -/

/-- `List.find?` on `range'` returns the least index satisfying `p`. -/
theorem find?_range'_first (p : Nat → Bool) (n : Nat) :
    ∀ (a i : Nat), i ∈ List.range' a n → p i = true →
      (∀ j ∈ List.range' a n, j < i → p j = false) →
      (List.range' a n).find? p = some i := by
  induction n with
  | zero => intro a i hi _ _; simp at hi
  | succ n ih =>
    intro a i hi hp hmin
    have hrange : List.range' a (n + 1) = a :: List.range' (a + 1) n := by
      simp [List.range'_succ]
    by_cases ha : i = a
    · subst ha
      rw [hrange, List.find?_cons_of_pos _ hp]
    · have hai : a ≤ i ∧ i < a + (n + 1) := (List.mem_range'_1).mp hi
      have halt : a < i := lt_of_le_of_ne hai.1 (fun h => ha h.symm)
      have hpa : p a = false := hmin a (by rw [hrange]; exact List.mem_cons_self a _) halt
      rw [hrange, List.find?_cons_of_neg _ (by simp [hpa])]
      refine ih (a + 1) i ?_ hp ?_
      · exact (List.mem_range'_1).mpr ⟨halt, by omega⟩
      · intro j hj hji
        refine hmin j ?_ hji
        rw [hrange]
        exact List.mem_cons_of_mem _ hj

/-! ## The claims -/

/-- **C3**: the approval-text parser implements the ten-rule precedence
of §4.2.  `"allow"` is allow with no reason and no timer; `"deny: too
risky"` is deny with that reason; `"allow all"` is allow with timer
`"all"` (via the exact rule — the capitalized `"Allow All"` also yields
timer `"all"`, not the case-preserved `"All"` the generic
`allow <rest>` rule would report); `"allow Bash"` keeps the case of the
timer; `"banana"` is not an approval; bare `"deny"` is deny with no
reason rather than a match of the `deny <reason>` rule. -/
theorem parse_approval_text_cases :
    parse_approval_text "allow" = some ⟨true, none, none⟩
    ∧ parse_approval_text "deny: too risky" = some ⟨false, some "too risky", none⟩
    ∧ parse_approval_text "allow all" = some ⟨true, none, some "all"⟩
    ∧ parse_approval_text "Allow All" = some ⟨true, none, some "all"⟩
    ∧ parse_approval_text "allow Bash" = some ⟨true, none, some "Bash"⟩
    ∧ parse_approval_text "banana" = none
    ∧ parse_approval_text "deny" = some ⟨false, none, none⟩ := by
  decide

/-- **C1**: a tool whose name matches a never-approve prefix is never
auto-approved by `check`, whatever grants are live (the never check is
the first thing `check` evaluates); the match is case-insensitive and
prefix-based on the stripped tool name (conjunct 2 exposes the matching
rule); and for any other tool, after `set_allow_all` the check returns
the non-none reason `"Allow All"` while the grant is unexpired. -/
theorem check_never_approve_priority (e : AutoApproveEngine)
    (thread_id tool_name : String) (t t' : Nat) (h : t' < t + e.duration_s) :
    (e.is_never_approved tool_name = true →
      ∀ tid now, e.check tid tool_name now = none)
    ∧ (e.is_never_approved tool_name =
        e.never.any (fun p => startsWithStr (lowerStr (trimStr tool_name)) p))
    ∧ (e.is_never_approved tool_name = false →
      (e.set_allow_all thread_id t).check thread_id tool_name t' = some "Allow All") := by
  refine ⟨?_, rfl, ?_⟩
  · intro hn tid now
    simp [AutoApproveEngine.check, hn]
  · intro hn
    have h1 : (e.set_allow_all thread_id t).is_never_approved tool_name = false := hn
    have h2 : (e.set_allow_all thread_id t).allow_all_until
        = AList.set e.allow_all_until thread_id (t + e.duration_s) := rfl
    simp [AutoApproveEngine.check, h1, h2, AList.get_set_self, h]

theorem check_never_approve_priority_witness :
    ((10 : Nat) < 0 + (AutoApproveEngine.init 1800 defaultNever).duration_s)
    ∧ ((AutoApproveEngine.init 1800 defaultNever).set_allow_all "T1" 0).check
        "T1" "Bash" 10 = some "Allow All"
    ∧ (AutoApproveEngine.init 1800 defaultNever).check "T2" "TaskRunner" 10 = none := by
  refine ⟨by decide, ?_, ?_⟩
  · exact (check_never_approve_priority (AutoApproveEngine.init 1800 defaultNever)
      "T1" "Bash" 0 10 (by decide)).2.2 (by decide)
  · exact (check_never_approve_priority (AutoApproveEngine.init 1800 defaultNever)
      "T1" "TaskRunner" 0 10 (by decide)).1 (by decide) "T2" 10

/-- An engine whose only state is one thread-directory association and
one directory grant, as the C4 scenario builds it. -/
def dirOnlyEngine (dur : Nat) (nev : List String) (thread_id D P : String)
    (t : Nat) : AutoApproveEngine :=
  ((AutoApproveEngine.init dur nev).associate_directory thread_id D).set_allow_directory
    P t

/-- **C4**: with a thread associated to directory `D` and one unexpired
directory grant on `P` (both normalized on storage, as
`associate_directory` and `set_allow_directory` do), the directory
check matches exactly when the normalized `D` equals the normalized `P`
or lies strictly under it across a `/` path boundary — a sibling
sharing only a string prefix does not match.  The second conjunct
confirms `check` itself reduces to this directory check for any tool
outside the never-approve set. -/
theorem directory_grant_path_boundary (dur t t' : Nat) (nev : List String)
    (thread_id D P : String) (h : t' < t + dur) :
    (((dirOnlyEngine dur nev thread_id D P t).check_directory thread_id t' ≠ none)
      ↔ (normpath D = normpath P
          ∨ startsWithStr (normpath D) (normpath P ++ "/") = true))
    ∧ (∀ tool, (dirOnlyEngine dur nev thread_id D P t).is_never_approved tool = false →
        (dirOnlyEngine dur nev thread_id D P t).check thread_id tool t'
          = (dirOnlyEngine dur nev thread_id D P t).check_directory thread_id t') := by
  constructor
  · have hne : normpath D ≠ "" := normpath_ne_empty D
    simp only [dirOnlyEngine, AutoApproveEngine.check_directory,
      AutoApproveEngine.associate_directory, AutoApproveEngine.set_allow_directory,
      AutoApproveEngine.init, AList.set, AList.get, if_pos rfl, List.findSome?]
    have hlt : ¬ t' ≥ t + dur := by omega
    simp only [hne, hlt, if_false, ite_false, ne_eq]
    by_cases hc : normpath D = normpath P
        ∨ startsWithStr (normpath D) (normpath P ++ "/") = true
    · simp [hc, hne, hlt]
    · simp [hc, hne, hlt]
  · intro tool hx
    have h1 : (dirOnlyEngine dur nev thread_id D P t).allow_all_until = [] := rfl
    have h2 : (dirOnlyEngine dur nev thread_id D P t).allow_tool_until = [] := rfl
    simp [AutoApproveEngine.check, hx, h1, h2, AList.get]

theorem directory_grant_path_boundary_witness :
    ((5 : Nat) < 0 + 30)
    ∧ ((dirOnlyEngine 30 [] "T1" "/home/user/repo/sub" "/home/user/repo" 0).check_directory
          "T1" 5 ≠ none)
    ∧ ¬ ((dirOnlyEngine 30 [] "T2" "/home/user/repository" "/home/user/repo" 0).check_directory
          "T2" 5 ≠ none)
    ∧ (dirOnlyEngine 30 [] "T1" "/home/user/repo/sub" "/home/user/repo" 0).check
          "T1" "Bash" 5
        = (dirOnlyEngine 30 [] "T1" "/home/user/repo/sub" "/home/user/repo" 0).check_directory
          "T1" 5 := by
  refine ⟨by decide, ?_, ?_, ?_⟩
  · exact (directory_grant_path_boundary 30 0 5 [] "T1" "/home/user/repo/sub"
      "/home/user/repo" (by decide)).1.mpr (Or.inr (by decide))
  · intro hc
    have hb := (directory_grant_path_boundary 30 0 5 [] "T2" "/home/user/repository"
      "/home/user/repo" (by decide)).1.mp hc
    revert hb
    decide
  · exact (directory_grant_path_boundary 30 0 5 [] "T1" "/home/user/repo/sub"
      "/home/user/repo" (by decide)).2 "Bash" (by decide)

/-- **C6**: after `remove_thread T`, every `check(T, X)` at any time is
`none` and `T`'s directory association is gone, while the
path-keyed directory grants and every other thread's grants and
association are untouched. -/
theorem remove_thread_frame (e : AutoApproveEngine) (thread_id : String) :
    (∀ tool now, (e.remove_thread thread_id).check thread_id tool now = none)
    ∧ (e.remove_thread thread_id).get_directory thread_id = none
    ∧ (e.remove_thread thread_id).allow_dir_until = e.allow_dir_until
    ∧ (∀ tid, tid ≠ thread_id →
        (∀ tool now, (e.remove_thread thread_id).check tid tool now = e.check tid tool now)
        ∧ (e.remove_thread thread_id).get_directory tid = e.get_directory tid) := by
  refine ⟨?_, ?_, rfl, ?_⟩
  · intro tool now
    by_cases hn : (e.remove_thread thread_id).is_never_approved tool = true
    · simp [AutoApproveEngine.check, hn]
    · simp [AutoApproveEngine.check, AutoApproveEngine.check_directory,
        AutoApproveEngine.remove_thread, hn, AList.get_erase_self, AList.get]
  · simp [AutoApproveEngine.get_directory, AutoApproveEngine.remove_thread,
      AList.get_erase_self]
  · intro tid hne
    have h1 : ∀ (l : List (String × Nat)),
        AList.get (AList.erase l thread_id) tid = AList.get l tid :=
      fun l => AList.get_erase_ne l thread_id tid hne
    have h2 : ∀ (l : List (String × List (String × Nat))),
        AList.get (AList.erase l thread_id) tid = AList.get l tid :=
      fun l => AList.get_erase_ne l thread_id tid hne
    have h3 : ∀ (l : List (String × String)),
        AList.get (AList.erase l thread_id) tid = AList.get l tid :=
      fun l => AList.get_erase_ne l thread_id tid hne
    constructor
    · intro tool now
      simp [AutoApproveEngine.check, AutoApproveEngine.check_directory,
        AutoApproveEngine.remove_thread, AutoApproveEngine.is_never_approved,
        h1, h2, h3]
    · simp [AutoApproveEngine.get_directory, AutoApproveEngine.remove_thread, h3]

/-- Concrete engine for the C6 witness: thread `T2` holds an allow-all
grant, `T1` a directory association. -/
def engineC6 : AutoApproveEngine :=
  ((AutoApproveEngine.init 1800 defaultNever).set_allow_all "T2" 0).associate_directory
    "T1" "/a"

theorem remove_thread_frame_witness :
    ((engineC6.remove_thread "T1").check "T1" "Bash" 5 = none)
    ∧ (engineC6.remove_thread "T1").get_directory "T1" = none
    ∧ (engineC6.remove_thread "T1").allow_dir_until = engineC6.allow_dir_until
    ∧ (engineC6.remove_thread "T1").check "T2" "Bash" 5 = engineC6.check "T2" "Bash" 5 := by
  refine ⟨(remove_thread_frame engineC6 "T1").1 "Bash" 5,
    (remove_thread_frame engineC6 "T1").2.1,
    (remove_thread_frame engineC6 "T1").2.2.1,
    ((remove_thread_frame engineC6 "T1").2.2.2 "T2" (by decide)).1 "Bash" 5⟩

/-- **C8**: `allocate_name` returns the truncated base when it is
unused; otherwise it walks the suffixed candidates for `i ∈ [2, 100)`
(99 names examined in total, counting the base) and returns the first
unused one, each truncated to stay within the maximum length; when all
are taken it returns the truncated base unchanged; and the
`"Repo"`/`"Repo 2"`/unregister/`"Repo"` scenario behaves as stated. -/
theorem allocate_name_spec (s : ThreadState) (base_name : String) :
    (s.alloc_base base_name ∉ s.used_names →
      s.allocate_name base_name = s.alloc_base base_name)
    ∧ (∀ i, 2 ≤ i → i < 100 →
        s.alloc_base base_name ∈ s.used_names →
        s.candidate (s.alloc_base base_name) i ∉ s.used_names →
        (∀ j, 2 ≤ j → j < i →
          s.candidate (s.alloc_base base_name) j ∈ s.used_names) →
        s.allocate_name base_name = s.candidate (s.alloc_base base_name) i)
    ∧ (s.alloc_base base_name ∈ s.used_names →
        (∀ i, 2 ≤ i → i < 100 →
          s.candidate (s.alloc_base base_name) i ∈ s.used_names) →
        s.allocate_name base_name = s.alloc_base base_name)
    ∧ (ThreadState.allocate_name ⟨64, [], []⟩ "Repo" = "Repo"
        ∧ (ThreadState.register ⟨64, [], []⟩ "t1" "Repo").allocate_name "Repo" = "Repo 2"
        ∧ ((ThreadState.register ⟨64, [], []⟩ "t1" "Repo").unregister
            "t1").allocate_name "Repo" = "Repo") := by
  refine ⟨?_, ?_, ?_, by decide⟩
  · intro h
    simp [ThreadState.allocate_name, h]
  · intro i h2 h100 hmem hfree hmin
    have hfind : (List.range' 2 98).find?
        (fun j => !decide (s.candidate (s.alloc_base base_name) j ∈ s.used_names))
        = some i := by
      refine find?_range'_first _ 98 2 i ?_ ?_ ?_
      · exact (List.mem_range'_1).mpr ⟨h2, by omega⟩
      · simpa using hfree
      · intro j hj hji
        have hj' := (List.mem_range'_1).mp hj
        simpa using hmin j hj'.1 hji
    simp [ThreadState.allocate_name, hmem, hfind]
  · intro hmem hall
    have hfind : (List.range' 2 98).find?
        (fun j => !decide (s.candidate (s.alloc_base base_name) j ∈ s.used_names))
        = none := by
      rw [List.find?_eq_none]
      intro j hj
      have hj' := (List.mem_range'_1).mp hj
      simpa using hall j hj'.1 (by omega)
    simp [ThreadState.allocate_name, hmem, hfind]

theorem allocate_name_spec_witness :
    ThreadState.allocate_name ⟨64, [], ["Other"]⟩ "Repo" = "Repo"
    ∧ ThreadState.allocate_name ⟨64, [("t1", "Repo")], ["Repo"]⟩ "Repo" = "Repo 2" := by
  constructor
  · exact ((allocate_name_spec ⟨64, [], ["Other"]⟩ "Repo").1 (by decide)).trans (by decide)
  · refine (((allocate_name_spec ⟨64, [("t1", "Repo")], ["Repo"]⟩ "Repo").2.1 2
      (by decide) (by decide) (by decide) (by decide) ?_).trans (by decide))
    intro j hj2 hj
    omega

/-- **C9**: `should_send` is always true when the configured interval is
non-positive; otherwise it is true exactly when no notification for the
thread is recorded within the interval, and a true result records `now`
in the same call, so a second call within the interval returns false. -/
theorem should_send_spec (d : ErrorDebouncer) (thread_id : String) (now now' : Int) :
    (d.debounce_s ≤ 0 → (d.should_send thread_id now).1 = true)
    ∧ (0 < d.debounce_s →
        ((d.should_send thread_id now).1 = true ↔
          ∀ last, AList.get d.last_sent thread_id = some last →
            d.debounce_s ≤ now - last))
    ∧ (0 < d.debounce_s → (d.should_send thread_id now).1 = true →
        AList.get (d.should_send thread_id now).2.last_sent thread_id = some now)
    ∧ (0 < d.debounce_s → now' - now < d.debounce_s →
        (d.should_send thread_id now).1 = true →
        ((d.should_send thread_id now).2.should_send thread_id now').1 = false) := by
  by_cases hd : d.debounce_s ≤ 0
  · refine ⟨fun _ => by simp [ErrorDebouncer.should_send, hd], ?_, ?_, ?_⟩
      <;> intro h0 <;> omega
  · have hpos : 0 < d.debounce_s := by omega
    refine ⟨fun h => absurd h hd, ?_, ?_, ?_⟩
    · intro _
      cases hl : AList.get d.last_sent thread_id with
      | none => simp [ErrorDebouncer.should_send, hd, hl]
      | some last =>
        by_cases hlt : now - last < d.debounce_s
        · simp [ErrorDebouncer.should_send, hd, hl, hlt]
        · simp [ErrorDebouncer.should_send, hd, hl, hlt]
          omega
    · intro _ htrue
      cases hl : AList.get d.last_sent thread_id with
      | none => simp [ErrorDebouncer.should_send, hd, hl, AList.get_set_self]
      | some last =>
        by_cases hlt : now - last < d.debounce_s
        · simp [ErrorDebouncer.should_send, hd, hl, hlt] at htrue
        · simp [ErrorDebouncer.should_send, hd, hl, hlt, AList.get_set_self]
    · intro _ hwin htrue
      have hrec : AList.get (d.should_send thread_id now).2.last_sent thread_id
          = some now := by
        cases hl : AList.get d.last_sent thread_id with
        | none => simp [ErrorDebouncer.should_send, hd, hl, AList.get_set_self]
        | some last =>
          by_cases hlt : now - last < d.debounce_s
          · simp [ErrorDebouncer.should_send, hd, hl, hlt] at htrue
          · simp [ErrorDebouncer.should_send, hd, hl, hlt, AList.get_set_self]
      have hds : (d.should_send thread_id now).2.debounce_s = d.debounce_s := by
        cases hl : AList.get d.last_sent thread_id with
        | none => simp [ErrorDebouncer.should_send, hd, hl]
        | some last =>
          by_cases hlt : now - last < d.debounce_s
            <;> simp [ErrorDebouncer.should_send, hd, hl, hlt]
      conv_lhs => rw [ErrorDebouncer.should_send]
      simp [hds, hd, hrec, hwin]

theorem should_send_spec_witness :
    ((⟨0, []⟩ : ErrorDebouncer).should_send "T" 5).1 = true
    ∧ ((⟨10, []⟩ : ErrorDebouncer).should_send "T" 100).1 = true
    ∧ (((⟨10, []⟩ : ErrorDebouncer).should_send "T" 100).2.should_send "T" 105).1 = false := by
  refine ⟨(should_send_spec ⟨0, []⟩ "T" 5 0).1 (by decide), ?_, ?_⟩
  · refine ((should_send_spec ⟨10, []⟩ "T" 100 0).2.1 (by decide)).mpr ?_
    intro last hlast
    simp [AList.get] at hlast
  · refine (should_send_spec ⟨10, []⟩ "T" 100 105).2.2.2 (by decide) (by decide) ?_
    refine ((should_send_spec ⟨10, []⟩ "T" 100 0).2.1 (by decide)).mpr ?_
    intro last hlast
    simp [AList.get] at hlast

/-- **C2, amended**: when `send_approval_request` finds an unexpired
grant via `check`, it invokes the supervisor approval callback with
`allowed = true` and the grant label passed as the callback's final
positional argument — the `timer` parameter of the handler signature,
with the `reason` parameter `none`, which is what `_auto_approve` does
and what the repository's own test asserts — feeds `(tool_name, label)`
to the batcher buffer, and returns without a render event and without
touching the pending map or the engine. -/
theorem send_approval_request_hit (b : Bridge)
    (thread_id request_id tool_name description : String) (now : Nat)
    (reason : String)
    (hc : b.approval.check thread_id tool_name now = some reason)
    (hr : reason ≠ "") (hcb : b.has_cb = true) :
    (b.send_approval_request thread_id request_id tool_name description now).1.pending
        = b.pending
    ∧ (b.send_approval_request thread_id request_id tool_name description now).1.approval
        = b.approval
    ∧ (b.send_approval_request thread_id request_id tool_name description now).1.batch_buffer
        = batcherAdd b.batch_buffer thread_id tool_name reason
    ∧ (b.send_approval_request thread_id request_id tool_name description now).2
        = [Event.approvalResponse thread_id request_id true none (some reason)] := by
  refine ⟨?_, ?_, ?_, ?_⟩ <;>
    simp [Bridge.send_approval_request, hc, hr, hcb]

/-- Concrete bridge with a live allow-all grant for `T1`. -/
def bridgeHit : Bridge :=
  { approval := (AutoApproveEngine.init 1800 defaultNever).set_allow_all "T1" 0,
    batch_buffer := [], pending := [], commands := [], on_command := none,
    has_cb := true, cmd_pref := "!", fmt := fun s => s }

/-- **C2, counterexample**: the claim says the callback is invoked with
*reason* equal to the grant label, but the handler signature is
`(thread_id, request_id, approved, reason, timer)` and `_auto_approve`
passes `(…, True, None, reason)`: at this concrete hit the `reason`
argument is `none` and the grant label `"Allow All"` arrives in the
`timer` slot instead. -/
theorem send_approval_request_reason_slot :
    (bridgeHit.send_approval_request "T1" "r1" "Bash" "{}" 10).2
      ≠ [Event.approvalResponse "T1" "r1" true (some "Allow All") none]
    ∧ (bridgeHit.send_approval_request "T1" "r1" "Bash" "{}" 10).2
      = [Event.approvalResponse "T1" "r1" true none (some "Allow All")] := by
  exact ⟨by decide, rfl⟩

theorem send_approval_request_hit_witness :
    bridgeHit.approval.check "T1" "Bash" 10 = some "Allow All"
    ∧ (bridgeHit.send_approval_request "T1" "r1" "Bash" "{}" 10).1.pending = []
    ∧ (bridgeHit.send_approval_request "T1" "r1" "Bash" "{}" 10).1.batch_buffer
        = [("T1", [("Bash", "Allow All")])]
    ∧ (bridgeHit.send_approval_request "T1" "r1" "Bash" "{}" 10).2
        = [Event.approvalResponse "T1" "r1" true none (some "Allow All")] := by
  have h := send_approval_request_hit bridgeHit "T1" "r1" "Bash" "{}" 10 "Allow All"
    (by decide) (by decide) rfl
  exact ⟨by decide, h.1, h.2.2.1.trans (by decide), h.2.2.2⟩

/-- **C5**: resolving a parsed approval against a pending permission
request writes the grant the timer scope dictates — allow-all for
`"all"`, a directory grant for `"dir"` when the thread has an
associated directory and an allow-all fallback when it has none, a
per-tool grant for any other non-empty literal timer string — and, for
every outcome, clears the pending request and invokes the supervisor
callback with `(thread_id, request_id, allow, reason, timer)`. -/
theorem handle_approval_resolution (b : Bridge) (thread_id : String)
    (request : ApprovalRequest) (reason : Option String)
    (username : Option String) (now : Nat) :
    (∀ parsed : Parsed, ∀ u : Option String,
      (b.handle_approval_parsed thread_id request parsed u now).1.pending
          = AList.erase b.pending thread_id
      ∧ (b.has_cb = true →
          Event.approvalResponse thread_id request.request_id parsed.allow
              parsed.reason parsed.timer
            ∈ (b.handle_approval_parsed thread_id request parsed u now).2))
    ∧ (b.handle_approval_parsed thread_id request ⟨true, reason, some "all"⟩
        username now).1.approval = b.approval.set_allow_all thread_id now
    ∧ (∀ d, b.approval.get_directory thread_id = some d → d ≠ "" →
        (b.handle_approval_parsed thread_id request ⟨true, reason, some "dir"⟩
          username now).1.approval = b.approval.set_allow_directory d now)
    ∧ (b.approval.get_directory thread_id = none →
        (b.handle_approval_parsed thread_id request ⟨true, reason, some "dir"⟩
          username now).1.approval = b.approval.set_allow_all thread_id now)
    ∧ (∀ t, t ≠ "all" → t ≠ "dir" → t ≠ "" →
        (b.handle_approval_parsed thread_id request ⟨true, reason, some t⟩
          username now).1.approval = b.approval.set_allow_tool thread_id t now) := by
  refine ⟨?_, by simp [Bridge.handle_approval_parsed], ?_, ?_, ?_⟩
  · intro parsed u
    refine ⟨rfl, ?_⟩
    intro hcb
    simp [Bridge.handle_approval_parsed, hcb]
  · intro d hget hd
    simp [Bridge.handle_approval_parsed, hget, hd]
  · intro hget
    simp [Bridge.handle_approval_parsed, hget]
  · intro t h1 h2 h3
    simp [Bridge.handle_approval_parsed, h1, h2, h3]

/-- Concrete pending request and bridge for the C5 witness. -/
def requestEx : ApprovalRequest := ⟨"permission", "r1", "Bash", "{}", ["Allow", "Deny"]⟩

def bridgePend : Bridge :=
  { approval := AutoApproveEngine.init 1800 defaultNever,
    batch_buffer := [], pending := [("T1", requestEx)], commands := [],
    on_command := none, has_cb := true, cmd_pref := "!", fmt := fun s => s }

theorem handle_approval_resolution_witness :
    (bridgePend.handle_approval_parsed "T1" requestEx ⟨true, none, some "all"⟩
        none 0).1.approval = bridgePend.approval.set_allow_all "T1" 0
    ∧ (bridgePend.handle_approval_parsed "T1" requestEx ⟨true, none, some "Write"⟩
        none 0).1.approval = bridgePend.approval.set_allow_tool "T1" "Write" 0
    ∧ (bridgePend.handle_approval_parsed "T1" requestEx ⟨true, none, some "dir"⟩
        none 0).1.approval = bridgePend.approval.set_allow_all "T1" 0
    ∧ (bridgePend.handle_approval_parsed "T1" requestEx ⟨true, none, some "all"⟩
        none 0).1.pending = []
    ∧ Event.approvalResponse "T1" "r1" true none (some "all")
        ∈ (bridgePend.handle_approval_parsed "T1" requestEx ⟨true, none, some "all"⟩
            none 0).2 := by
  have h := handle_approval_resolution bridgePend "T1" requestEx none none 0
  refine ⟨h.2.1, h.2.2.2.2 "Write" (by decide) (by decide) (by decide),
    h.2.2.2.1 (by decide), ?_, ?_⟩
  · exact (h.1 ⟨true, none, some "all"⟩ none).1.trans (by decide)
  · exact (h.1 ⟨true, none, some "all"⟩ none).2 rfl

/-- **C10**: resolving a pending permission request with a deny writes
no grant of any scope — the engine (all four of its maps) is exactly
unchanged, as is the batch buffer; only the pending request is cleared,
the callback fired (when set) and the denial confirmation sent. -/
theorem deny_writes_no_grant (b : Bridge) (thread_id : String)
    (request : ApprovalRequest) (reason timer : Option String)
    (username : Option String) (now : Nat) :
    (b.handle_approval_parsed thread_id request ⟨false, reason, timer⟩
        username now).1.approval = b.approval
    ∧ (b.handle_approval_parsed thread_id request ⟨false, reason, timer⟩
        username now).1.batch_buffer = b.batch_buffer
    ∧ (b.handle_approval_parsed thread_id request ⟨false, reason, timer⟩
        username now).1.pending = AList.erase b.pending thread_id
    ∧ (b.handle_approval_parsed thread_id request ⟨false, reason, timer⟩
        username now).2
      = (if b.has_cb then
          [Event.approvalResponse thread_id request.request_id false reason timer]
         else [])
        ++ [Bridge.approval_confirmation thread_id ⟨false, reason, timer⟩ username] := by
  exact ⟨rfl, rfl, rfl, rfl⟩

/-- Bridge whose catch-all command handler raises (for C7). -/
def bridgeCatchAllRaises : Bridge :=
  { approval := AutoApproveEngine.init 1800 defaultNever,
    batch_buffer := [], pending := [], commands := [],
    on_command := some (fun _ _ _ => Except.error "boom"),
    has_cb := true, cmd_pref := "!", fmt := fun s => s }

/-- **C7, counterexample**: the claim says every failing command *or
catch-all* handler invocation reports a short "command failed" message
to the thread.  Here the catch-all handler raises during dispatch of
`"!doit now"` and the dispatcher emits no message at all (the
exception is only logged). -/
theorem dispatch_catchall_failure_silent :
    (bridgeCatchAllRaises.dispatch_command "T1" "!doit now" none).2 = []
    ∧ (bridgeCatchAllRaises.dispatch_command "T1" "!doit now" none).1.pending
        = bridgeCatchAllRaises.pending := by
  exact ⟨rfl, rfl⟩

/-- **C7, amended**: exceptions from command and catch-all handlers are
caught per-invocation — dispatch always returns normally with the
bridge state (pending requests, grants and all) unchanged; a failing
*registered* command handler is reported to the thread as a short
`"Command failed: <name>"` message, while a failing *catch-all* handler
is caught and logged with no message sent. -/
theorem dispatch_command_failure_handling (b : Bridge) (thread_id text : String)
    (u : Option String) :
    (b.dispatch_command thread_id text u).1 = b
    ∧ (∀ nm args cmd e, Bridge.commandParts b.cmd_pref text = some (nm, args) →
        AList.get b.commands nm = some cmd →
        cmd.handler thread_id args = Except.error e →
        (b.dispatch_command thread_id text u).2
          = [Event.sendText thread_id ("Command failed: " ++ nm)])
    ∧ (∀ nm args h e, Bridge.commandParts b.cmd_pref text = some (nm, args) →
        AList.get b.commands nm = none →
        b.on_command = some h →
        h thread_id nm args = Except.error e →
        (b.dispatch_command thread_id text u).2 = []) := by
  refine ⟨?_, ?_, ?_⟩
  · unfold Bridge.dispatch_command
    split
    · rfl
    · split
      · split <;> rfl
      · split
        · split <;> rfl
        · rfl
  · intro nm args cmd e h1 h2 h3
    simp [Bridge.dispatch_command, h1, h2, h3]
  · intro nm args h e h1 h2 h3 h4
    simp [Bridge.dispatch_command, h1, h2, h3, h4]

/-- Bridge with a registered command whose handler raises (for the C7
witness). -/
def bridgeCmdRaises : Bridge :=
  { approval := AutoApproveEngine.init 1800 defaultNever,
    batch_buffer := [], pending := [],
    commands := [("boom", ⟨"explodes", fun _ _ => Except.error "x"⟩)],
    on_command := none, has_cb := true, cmd_pref := "!", fmt := fun s => s }

theorem dispatch_command_failure_handling_witness :
    (bridgeCmdRaises.dispatch_command "T1" "!Boom now" none).1 = bridgeCmdRaises
    ∧ (bridgeCmdRaises.dispatch_command "T1" "!Boom now" none).2
        = [Event.sendText "T1" ("Command failed: " ++ "boom")] := by
  have h := dispatch_command_failure_handling bridgeCmdRaises "T1" "!Boom now" none
  exact ⟨h.1, h.2.1 "boom" "now" ⟨"explodes", fun _ _ => Except.error "x"⟩ "x"
    (by decide) rfl rfl⟩

end AgentTether
